import Mathlib

/-!
Verification of the MarathonBet-Scraper specification against the repository.

The repository snapshot contains the frontend (TypeScript: `types.ts`,
`Filters.tsx`, `ResultsTable.tsx`, the api client), the README, the Makefile,
docker-compose and the backend `requirements.txt`.  The backend Python sources
(Event Model, Event Store, Scrape Scheduler, Query Engine) are not part of the
snapshot; where a claim depends on them, the operations are modelled from the
spec, and each such definition says so in its doc comment.  The canonical
`Event` data shapes are taken from `src/frontend/src/types.ts`, which declares
them as code.
-/

/-- From `src/frontend/src/types.ts` (`Score`): `label` optional, `value`
required. -/
structure Score where
  label : Option String
  value : String
deriving DecidableEq, Repr

/-- From `src/frontend/src/types.ts` (`EventMetadata`): immutable-once-set
facts of a fixture.  The open-ended `extra?: Record<string, any>` is modelled
as an association list of strings (values are uninterpreted by the core). -/
structure EventMetadata where
  competition_id : Int
  competition_name : String
  home_team : String
  away_team : String
  start_time : Int
  extra : List (String × String)
deriving DecidableEq, Repr

/-- From `src/frontend/src/types.ts` (`EventState`): mutable score state. -/
structure EventState where
  is_live : Option Bool
  scores : List Score
deriving DecidableEq, Repr

/-- From `src/frontend/src/types.ts` (`Event`): one fixture's latest known
state. -/
structure Event where
  event_id : String
  sport : String
  metadata : EventMetadata
  state : EventState
  extra : List (String × String)
deriving DecidableEq, Repr

/-- Error taxonomy of the spec (§7), restricted to the errors the claims
mention. -/
inductive CoreError where
  | MetadataConflict
  | InvalidFilter
deriving DecidableEq, Repr

/-- Modelled from the spec: the backend Event Store is absent from the
snapshot; store entries are keyed by `event_id` (§6 persisted state layout);
the store is modelled as the list of its records. -/
abbrev Store := List Event

/-- Modelled from the spec: §4.1 `merge(existing, incoming)` of the absent
Event Model — returns incoming's `state`/`extra` combined with existing's
immutable `metadata`; fails with `MetadataConflict` if incoming metadata
differs from stored metadata. -/
def merge (existing incoming : Event) : Except CoreError Event :=
  if existing.metadata = incoming.metadata then
    .ok { event_id := existing.event_id
          sport := incoming.sport
          metadata := existing.metadata
          state := incoming.state
          extra := incoming.extra }
  else
    .error .MetadataConflict

/-- Modelled from the spec: §4.3 `upsert` of the absent Event Store —
inserts a new record, or merges by `event_id` via the Event Model `merge`. -/
def upsert (s : Store) (e : Event) : Except CoreError Store :=
  match List.find? (fun x => x.event_id == e.event_id) s with
  | none => .ok (s ++ [e])
  | some ex =>
    match merge ex e with
    | .ok m => .ok (List.map (fun x => if x.event_id == e.event_id then m else x) s)
    | .error err => .error err

/-- Modelled from the spec: §7 — a `MetadataConflict` drops the record from
that cycle's upsert and does not affect the store; the store after an upsert
attempt is the successful result, or the unchanged store on error. -/
def applyUpsert (s : Store) (e : Event) : Store :=
  match upsert s e with
  | .ok s2 => s2
  | .error _ => s

/-- Modelled from the spec: §4.3 `evict_expired(retention_window)` of the
absent Event Store — removes events whose `start_time` is older than
`now - retention_window`, returning the retained store and the removed
count. -/
def evictExpired (s : Store) (now retention : Int) : Store × Nat :=
  let kept := List.filter (fun e => decide (now - retention ≤ e.metadata.start_time)) s
  (kept, s.length - kept.length)

/-- Executable check that `needle` is a leading segment of `hay` (character
lists). -/
def leadsList : List Char → List Char → Bool
  | [], _ => true
  | _ :: _, [] => false
  | a :: as, b :: bs => a == b && leadsList as bs

/-- Executable substring search on character lists: `needle` occurs
contiguously somewhere in `hay`. -/
def isSubListOf : List Char → List Char → Bool
  | n, [] => n.isEmpty
  | n, b :: bs => leadsList n (b :: bs) || isSubListOf n bs

/-- The characters of a string, lowercased (case-insensitive comparisons are
performed on this form). -/
def lowerData (s : String) : List Char :=
  List.map Char.toLower s.data

/-- Modelled from the spec: §4.3 — keyword matching is a case-insensitive
substring test. -/
def containsCI (needle hay : String) : Bool :=
  isSubListOf (lowerData needle) (lowerData hay)

/-- Modelled from the spec: §4.3 — optional exact `sport` filter,
case-insensitive. -/
def matchSport (sportFilter : Option String) (e : Event) : Bool :=
  match sportFilter with
  | none => true
  | some s => lowerData e.sport == lowerData s

/-- Modelled from the spec: §4.3 — optional `keyword` filter, a
case-insensitive substring match across `home_team`, `away_team` and
`competition_name`. -/
def matchKeyword (keyword : Option String) (e : Event) : Bool :=
  match keyword with
  | none => true
  | some k =>
    containsCI k e.metadata.home_team || containsCI k e.metadata.away_team ||
      containsCI k e.metadata.competition_name

/-- Modelled from the spec: §4.3 — an event is in the queried window when its
`start_time` falls within `[now - window, now]`. -/
def inWindow (now window : Int) (e : Event) : Bool :=
  decide (now - window ≤ e.metadata.start_time) && decide (e.metadata.start_time ≤ now)

/-- Executable lexicographic order on character lists (used to break ordering
ties by `event_id`). -/
def charListLe : List Char → List Char → Bool
  | [], _ => true
  | _ :: _, [] => false
  | a :: as, b :: bs => decide (a < b) || (a == b && charListLe as bs)

theorem charListLe_total : ∀ xs ys : List Char,
    charListLe xs ys = true ∨ charListLe ys xs = true
  | [], _ => Or.inl rfl
  | _ :: _, [] => Or.inr rfl
  | a :: as, b :: bs => by
    rcases lt_trichotomy a b with h | h | h
    · exact Or.inl (by simp [charListLe, h])
    · subst h
      rcases charListLe_total as bs with h' | h' <;>
        [exact Or.inl (by simp [charListLe, h']); exact Or.inr (by simp [charListLe, h'])]
    · exact Or.inr (by simp [charListLe, h])

theorem charListLe_trans : ∀ xs ys zs : List Char,
    charListLe xs ys = true → charListLe ys zs = true → charListLe xs zs = true
  | [], _, _ => fun _ _ => rfl
  | _ :: _, [], _ => fun h _ => by simp [charListLe] at h
  | _ :: _, _ :: _, [] => fun _ h => by simp [charListLe] at h
  | a :: as, b :: bs, c :: cs => fun h1 h2 => by
    simp only [charListLe, Bool.or_eq_true, Bool.and_eq_true, decide_eq_true_eq,
      beq_iff_eq] at h1 h2 ⊢
    rcases h1 with h1 | ⟨rfl, h1⟩ <;> rcases h2 with h2 | ⟨rfl, h2⟩
    · exact Or.inl (lt_trans h1 h2)
    · exact Or.inl h1
    · exact Or.inl h2
    · exact Or.inr ⟨rfl, charListLe_trans as bs cs h1 h2⟩

/-- Modelled from the spec: §4.3 result ordering — ascending `start_time`,
ties broken by `event_id`. -/
def eventLe (a b : Event) : Prop :=
  a.metadata.start_time < b.metadata.start_time ∨
    (a.metadata.start_time = b.metadata.start_time ∧
      charListLe a.event_id.data b.event_id.data = true)

instance : DecidableRel eventLe := fun a b => by
  unfold eventLe; infer_instance

instance : IsTrans Event eventLe where
  trans a b c hab hbc := by
    rcases hab with h1 | ⟨h1, h1'⟩ <;> rcases hbc with h2 | ⟨h2, h2'⟩
    · exact Or.inl (lt_trans h1 h2)
    · exact Or.inl (h2 ▸ h1)
    · exact Or.inl (h1 ▸ h2)
    · exact Or.inr ⟨h1.trans h2, charListLe_trans _ _ _ h1' h2'⟩

instance : IsTotal Event eventLe where
  total a b := by
    rcases lt_trichotomy a.metadata.start_time b.metadata.start_time with h | h | h
    · exact Or.inl (Or.inl h)
    · rcases charListLe_total a.event_id.data b.event_id.data with h' | h'
      · exact Or.inl (Or.inr ⟨h, h'⟩)
      · exact Or.inr (Or.inr ⟨h.symm, h'⟩)
    · exact Or.inr (Or.inl h)

/-- Modelled from the spec: §4.3 `query` of the absent Event Store — all
events whose `start_time` falls within `[now - window, now]`, optionally
filtered by sport and keyword, sorted ascending by `start_time` with ties
broken by `event_id`. -/
def query (s : Store) (now window : Int) (sportFilter keyword : Option String) :
    List Event :=
  List.insertionSort eventLe
    (List.filter (fun e => inWindow now window e && matchSport sportFilter e &&
      matchKeyword keyword e) s)

/-- Modelled from the spec: §4.5/§6 — the `hours` request parameter as the
Query Engine receives it: either not a number at all, or a numeric value. -/
inductive HoursParam where
  | nonNumeric
  | num (n : Int)
deriving DecidableEq, Repr

/-- Modelled from the spec: §4.5 — `hours` is invalid when non-numeric, zero
or negative. -/
def badHours : HoursParam → Bool
  | .nonNumeric => true
  | .num n => decide (n ≤ 0)

/-- Modelled from the spec: §4.5 Query Engine — validates `hours`
(`InvalidFilter` on non-numeric or non-positive) and otherwise translates the
request into an Event Store `query` over the last `hours * 3600` seconds. -/
def queryEngine (s : Store) (now : Int) (hours : HoursParam)
    (sportFilter keyword : Option String) : Except CoreError (List Event) :=
  match hours with
  | .nonNumeric => .error .InvalidFilter
  | .num n =>
    if n ≤ 0 then .error .InvalidFilter
    else .ok (query s now (n * 3600) sportFilter keyword)

/-- Modelled from the spec: §7 — a query request reads the store and performs
no server-side mutation; the handler returns the response together with the
(unchanged) store. -/
def handleQuery (s : Store) (now : Int) (hours : HoursParam)
    (sportFilter keyword : Option String) :
    Except CoreError (List Event) × Store :=
  (queryEngine s now hours sportFilter keyword, s)

/-- Modelled from the spec: §6 — HTTP status mapping of the query endpoint:
`400` for an invalid filter, `200` otherwise (zero matches included). -/
def httpStatus : Except CoreError (List Event) → Nat
  | .error _ => 400
  | .ok _ => 200

/-- Modelled from the spec: §4.4 Scrape Scheduler states. -/
inductive SchedPhase where
  | IDLE
  | FETCHING
  | RECONCILING
  | BACKOFF
  | STOPPED
deriving DecidableEq, Repr

/-- Modelled from the spec: §4.4 — the Scheduler's diagnostic state together
with its backoff configuration (`base`, `max_backoff` are configuration
inputs). -/
structure Scheduler where
  phase : SchedPhase
  consecutive_failures : Nat
  base : Nat
  max_backoff : Nat
deriving DecidableEq, Repr

/-- Modelled from the spec: §4.4 — on `FetchError`, increment
`consecutive_failures` and enter `BACKOFF` for
`min(max_backoff, base * 2 ^ consecutive_failures)`; returns the new state and
the backoff interval. -/
def onFetchError (sc : Scheduler) : Scheduler × Nat :=
  let f := sc.consecutive_failures + 1
  ({ sc with phase := .BACKOFF, consecutive_failures := f },
    min sc.max_backoff (sc.base * 2 ^ f))

/-- JSON values, as far as the response serialization needs them; an object is
its ordered field list. -/
inductive Json where
  | str (s : String)
  | num (n : Int)
  | arr (xs : List Json)
  | obj (fields : List (String × Json))

/-- Modelled from the spec: §6 — one `Score` entry of the response,
`{value, label?}` with `value` required and `label` present only when set. -/
def serializeScore (sc : Score) : Json :=
  .obj ([("value", .str sc.value)] ++
    (match sc.label with
     | none => []
     | some l => [("label", .str l)]))

/-- Modelled from the spec: §6 — the serialization of one Event record of the
query response: exactly the fields
`{event_id, sport, metadata: {competition_name, home_team, away_team,
start_time}, state: {scores: [...]}}`.  The `event_id` is that of the
canonical `Event` (a string, per `src/frontend/src/types.ts`). -/
def serializeEvent (e : Event) : Json :=
  .obj [("event_id", .str e.event_id),
        ("sport", .str e.sport),
        ("metadata", .obj [("competition_name", .str e.metadata.competition_name),
                           ("home_team", .str e.metadata.home_team),
                           ("away_team", .str e.metadata.away_team),
                           ("start_time", .num e.metadata.start_time)]),
        ("state", .obj [("scores", .arr (List.map serializeScore e.state.scores))])]

/-- From `src/frontend/src/types.ts` (`Score` inside `EventData.state`): a
score object carries a required string `value` and an optional string
`label`. -/
def scoreObjOk : Json → Bool
  | .obj [("value", .str _)] => true
  | .obj [("value", .str _), ("label", .str _)] => true
  | _ => false

/-- From `src/frontend/src/types.ts` (`EventData.metadata`): exactly
`competition_name`, `home_team`, `away_team` (strings) and `start_time`
(number). -/
def metadataObjOk : Json → Bool
  | .obj [("competition_name", .str _), ("home_team", .str _),
          ("away_team", .str _), ("start_time", .num _)] => true
  | _ => false

/-- From `src/frontend/src/types.ts` (`EventData.state`): an object whose
single field `scores` is an array of score objects. -/
def stateObjOk : Json → Bool
  | .obj [("scores", .arr xs)] => List.all xs scoreObjOk
  | _ => false

/-- From `src/frontend/src/types.ts` (`EventData`): the shape the display
layer consumes — `event_id` is declared `number` there. -/
def eventDataOk : Json → Bool
  | .obj [("event_id", .num _), ("sport", .str _), ("metadata", md),
          ("state", st)] => metadataObjOk md && stateObjOk st
  | _ => false

/-- The `EventData` shape with the single deviation that `event_id` is a
string, as the canonical `Event` interface of `src/frontend/src/types.ts`
declares it. -/
def eventDataStrIdOk : Json → Bool
  | .obj [("event_id", .str _), ("sport", .str _), ("metadata", md),
          ("state", st)] => metadataObjOk md && stateObjOk st
  | _ => false

/-- From `src/frontend/src/types.ts` (`fetchEvents`, the api client): the
argument object `{sport?, keyword?, hours?}`.  JavaScript numbers are
modelled as integers (`NaN`/fractional values play no role in the claims). -/
structure FetchArgs where
  sport : Option String
  keyword : Option String
  hours : Option Int
deriving DecidableEq, Repr

/-- JavaScript truthiness of an optional string: `undefined` and `""` are
falsy. -/
def truthyStr : Option String → Bool
  | none => false
  | some s => !(s == "")

/-- JavaScript truthiness of an optional number: `undefined` and `0` are
falsy. -/
def truthyNum : Option Int → Bool
  | none => false
  | some n => !(n == 0)

/-- From `src/frontend/src/types.ts` (`fetchEvents`): the query parameters
appended to `GET /v1/get_results` — each of `sport`, `keyword`, `hours` is
appended only when its value is truthy. -/
def buildParams (a : FetchArgs) : List (String × String) :=
  (if truthyStr a.sport then [("sport", a.sport.getD "")] else []) ++
    (if truthyStr a.keyword then [("keyword", a.keyword.getD "")] else []) ++
    (if truthyNum a.hours then [("hours", toString (a.hours.getD 0))] else [])

/-- Sample fixture: Juventus vs Inter (spec §8 scenario). -/
def mdJuve : EventMetadata :=
  { competition_id := 1, competition_name := "Serie A", home_team := "Juventus",
    away_team := "Inter", start_time := 9000, extra := [] }

/-- Sample stored event `e1` (spec §8 scenario). -/
def evJuve : Event :=
  { event_id := "e1", sport := "Football", metadata := mdJuve,
    state := { is_live := none, scores := [{ label := none, value := "2-1" }] },
    extra := [] }

/-- Sample fixture: Milan vs Roma (spec §8 keyword-filter scenario). -/
def mdMilan : EventMetadata :=
  { competition_id := 1, competition_name := "Serie A", home_team := "Milan",
    away_team := "Roma", start_time := 8000, extra := [] }

/-- Sample event excluded by the `juventus` keyword. -/
def evMilan : Event :=
  { event_id := "e2", sport := "Football", metadata := mdMilan,
    state := { is_live := none, scores := [{ label := none, value := "0-0" }] },
    extra := [] }

/-- Stored event `E1` of the merge scenario (spec §8): scores `[{value:"1-0"}]`. -/
def evE1 : Event :=
  { event_id := "e1", sport := "Football", metadata := mdJuve,
    state := { is_live := none, scores := [{ label := none, value := "1-0" }] },
    extra := [] }

/-- Incoming event `E2` of the merge scenario (spec §8): same `event_id` and
`metadata` as `E1`, scores `[{value:"2-0"}]`. -/
def evE2 : Event :=
  { event_id := "e1", sport := "Football", metadata := mdJuve,
    state := { is_live := none, scores := [{ label := none, value := "2-0" }] },
    extra := [] }

/-- An incoming event sharing `E1`'s `event_id` but with a different
`metadata.start_time` (metadata-conflict scenario). -/
def evE3 : Event :=
  { event_id := "e1", sport := "Football",
    metadata := { mdJuve with start_time := 9999 },
    state := { is_live := none, scores := [{ label := none, value := "1-0" }] },
    extra := [] }

/-- `keyword` is a case-insensitive substring of `s`: the lowercased keyword
occurs contiguously in the lowercased string. -/
def ciSubstring (keyword s : String) : Prop :=
  List.IsInfix (lowerData keyword) (lowerData s)

/-- The record a successful `merge existing incoming` produces: incoming's
`state`/`extra`, existing's `metadata` and identity. -/
def mergedEvent (existing incoming : Event) : Event :=
  { event_id := existing.event_id, sport := incoming.sport,
    metadata := existing.metadata, state := incoming.state,
    extra := incoming.extra }


/-! ## Supporting lemmas -/

theorem leadsList_iff : ∀ n h : List Char, leadsList n h = true ↔ List.IsPrefix n h
  | [], h => by simp [leadsList]
  | _ :: _, [] => by simp [leadsList]
  | a :: as, b :: bs => by
    simp [leadsList, Bool.and_eq_true, beq_iff_eq, leadsList_iff as bs,
      List.cons_prefix_cons]

theorem isSubListOf_iff : ∀ n h : List Char, isSubListOf n h = true ↔ List.IsInfix n h
  | n, [] => by
    simp [isSubListOf, List.isEmpty_iff]
  | n, b :: bs => by
    rw [ List.infix_cons_iff]
    simp [isSubListOf, Bool.or_eq_true, leadsList_iff, isSubListOf_iff n bs]

theorem containsCI_iff (k s : String) : containsCI k s = true ↔ ciSubstring k s := by
  rw [containsCI, ciSubstring, isSubListOf_iff]

theorem merge_eq_of_metadata {existing incoming : Event}
    (h : existing.metadata = incoming.metadata) :
    merge existing incoming = .ok (mergedEvent existing incoming) := by
  unfold merge mergedEvent
  rw [if_pos h]

theorem merge_conflict {existing incoming : Event}
    (h : existing.metadata ≠ incoming.metadata) :
    merge existing incoming = .error .MetadataConflict := by
  unfold merge
  rw [if_neg h]

theorem merge_self (e : Event) : merge e e = .ok e := by
  cases e
  simp [merge]

theorem scoreObjOk_serialize (sc : Score) : scoreObjOk (serializeScore sc) = true := by
  obtain ⟨lab, v⟩ := sc
  cases lab <;> rfl

/-! ## Claim theorems -/

/-- C4: for every store state and retention window `R`, after
`evict_expired(R)` no stored event has `start_time < now - R`; every event
with `start_time ≥ now - R` is still present, unmodified, and nothing else is
touched (the retained store is a sublist of the original). -/
theorem evict_expired_retention (s : Store) (now R : Int) :
    (∀ e ∈ (evictExpired s now R).1, ¬ e.metadata.start_time < now - R) ∧
    (∀ e ∈ s, now - R ≤ e.metadata.start_time → e ∈ (evictExpired s now R).1) ∧
    List.Sublist (evictExpired s now R).1 s := by
  have hfst : (evictExpired s now R).1 =
      List.filter (fun e => decide (now - R ≤ e.metadata.start_time)) s := rfl
  refine ⟨?_, ?_, ?_⟩
  · intro e he
    rw [hfst] at he
    have := (List.mem_filter.mp he).2
    simp only [decide_eq_true_eq] at this
    omega
  · intro e he h
    rw [hfst]
    exact List.mem_filter.mpr ⟨he, by simpa using h⟩
  · rw [hfst]
    exact List.filter_sublist s

/-- C4 witness: the retention theorem applied to a concrete store. -/
theorem evict_expired_retention_witness :
    (∀ e ∈ (evictExpired [evJuve, evMilan] 10000 1500).1,
      ¬ e.metadata.start_time < 10000 - 1500) ∧
    (∀ e ∈ [evJuve, evMilan], 10000 - 1500 ≤ e.metadata.start_time →
      e ∈ (evictExpired [evJuve, evMilan] 10000 1500).1) ∧
    List.Sublist (evictExpired [evJuve, evMilan] 10000 1500).1 [evJuve, evMilan] :=
  evict_expired_retention [evJuve, evMilan] 10000 1500

/-- C6: on every `FetchError` the Scheduler increments
`consecutive_failures` and enters `BACKOFF` for exactly
`min(max_backoff, base * 2 ^ consecutive_failures)`; three consecutive
`FetchError`s produce non-decreasing backoff intervals bounded by
`max_backoff`. -/
theorem scheduler_backoff_growth (sc : Scheduler) :
    ((onFetchError sc).1.consecutive_failures = sc.consecutive_failures + 1) ∧
    ((onFetchError sc).1.phase = SchedPhase.BACKOFF) ∧
    ((onFetchError sc).2 =
      min sc.max_backoff (sc.base * 2 ^ (sc.consecutive_failures + 1))) ∧
    ((onFetchError sc).2 ≤ (onFetchError (onFetchError sc).1).2) ∧
    ((onFetchError (onFetchError sc).1).2 ≤
      (onFetchError (onFetchError (onFetchError sc).1).1).2) ∧
    ((onFetchError sc).2 ≤ sc.max_backoff) ∧
    ((onFetchError (onFetchError sc).1).2 ≤ sc.max_backoff) ∧
    ((onFetchError (onFetchError (onFetchError sc).1).1).2 ≤ sc.max_backoff) := by
  refine ⟨rfl, rfl, rfl, ?_, ?_, Nat.min_le_left _ _, Nat.min_le_left _ _,
    Nat.min_le_left _ _⟩ <;>
  · simp only [onFetchError]
    exact min_le_min (le_refl _)
      (mul_le_mul_left' (Nat.pow_le_pow_right (by omega) (by omega)) _)

/-- C7: a keyword filter matches exactly when the keyword is a
case-insensitive substring of `home_team`, `away_team` or `competition_name`;
the sport filter is case-insensitive exact equality; `"juventus"` matches the
Juventus–Inter event and excludes the Milan–Roma one. -/
theorem keyword_sport_filter_semantics :
    (∀ k e, matchKeyword (some k) e = true ↔
      (ciSubstring k e.metadata.home_team ∨ ciSubstring k e.metadata.away_team ∨
        ciSubstring k e.metadata.competition_name)) ∧
    (∀ sp e, matchSport (some sp) e = true ↔ lowerData e.sport = lowerData sp) ∧
    matchKeyword (some "juventus") evJuve = true ∧
    matchKeyword (some "juventus") evMilan = false := by
  refine ⟨?_, ?_, by decide, by decide⟩
  · intro k e
    simp [matchKeyword, Bool.or_eq_true, containsCI_iff, or_assoc]
  · intro sp e
    simp [matchSport]

/-- C10: the frontend api client appends each of `sport`, `keyword`, `hours`
to the `GET /v1/get_results` query string exactly when its value is truthy;
in particular `hours = 0` (with the other filters empty or absent) produces a
request with no parameters at all. -/
theorem fetch_params_truthy (a : FetchArgs) :
    (List.contains (List.map Prod.fst (buildParams a)) "sport" = truthyStr a.sport) ∧
    (List.contains (List.map Prod.fst (buildParams a)) "keyword" = truthyStr a.keyword) ∧
    (List.contains (List.map Prod.fst (buildParams a)) "hours" = truthyNum a.hours) ∧
    buildParams { sport := none, keyword := none, hours := some 0 } = [] := by
  obtain ⟨s, k, h⟩ := a
  refine ⟨?_, ?_, ?_, by decide⟩ <;>
  · cases hs : truthyStr s <;> cases hk : truthyStr k <;> cases hh : truthyNum h <;>
      simp [buildParams, hs, hk, hh, List.contains]

/-- C1: `query(hours=H)` (no sport or keyword filter) returns exactly the
stored events with `now - H*3600 ≤ start_time ≤ now`, sorted ascending by
`start_time` with ties broken by `event_id`. -/
theorem query_time_window_sorted (s : Store) (now H : Int) (_hH : 0 < H) :
    (∀ e, e ∈ query s now (H * 3600) none none ↔
      e ∈ s ∧ now - H * 3600 ≤ e.metadata.start_time ∧
        e.metadata.start_time ≤ now) ∧
    List.Sorted eventLe (query s now (H * 3600) none none) := by
  constructor
  · intro e
    unfold query
    rw [List.mem_insertionSort, List.mem_filter]
    simp [inWindow, matchSport, matchKeyword, and_assoc]
  · exact List.sorted_insertionSort eventLe _

/-- C1 witness: the time-window theorem applied at a concrete store and
`H = 1`. -/
theorem query_time_window_sorted_witness :
    (0 : Int) < 1 ∧
    ((∀ e, e ∈ query [evJuve, evMilan] 10000 (1 * 3600) none none ↔
      e ∈ [evJuve, evMilan] ∧ 10000 - 1 * 3600 ≤ e.metadata.start_time ∧
        e.metadata.start_time ≤ 10000) ∧
    List.Sorted eventLe (query [evJuve, evMilan] 10000 (1 * 3600) none none)) :=
  ⟨by decide, query_time_window_sorted [evJuve, evMilan] 10000 1 (by decide)⟩

/-- C2: merging an incoming event with equal `event_id` and equal metadata
returns incoming's `state`/`extra` with existing's `metadata`; in particular
upserting `E2` (scores `[{value:"2-0"}]`) over stored `E1` (scores
`[{value:"1-0"}]`) stores a record with scores `[{value:"2-0"}]` and the
metadata unchanged. -/
theorem merge_state_update (E1 E2 : Event) (_hid : E1.event_id = E2.event_id)
    (hmd : E1.metadata = E2.metadata) :
    (∃ m, merge E1 E2 = .ok m ∧ m.state = E2.state ∧ m.extra = E2.extra ∧
      m.metadata = E1.metadata) ∧
    (applyUpsert [evE1] evE2 = [evE2] ∧
      evE2.state.scores = [{ label := none, value := "2-0" }] ∧
      evE2.metadata = evE1.metadata) := by
  exact ⟨⟨mergedEvent E1 E2, merge_eq_of_metadata hmd, rfl, rfl, rfl⟩,
    by decide, by decide, by decide⟩

/-- C2 witness: the merge theorem applied to the concrete `E1`/`E2` pair of
the scenario. -/
theorem merge_state_update_witness :
    evE1.event_id = evE2.event_id ∧ evE1.metadata = evE2.metadata ∧
    ((∃ m, merge evE1 evE2 = .ok m ∧ m.state = evE2.state ∧
      m.extra = evE2.extra ∧ m.metadata = evE1.metadata) ∧
    (applyUpsert [evE1] evE2 = [evE2] ∧
      evE2.state.scores = [{ label := none, value := "2-0" }] ∧
      evE2.metadata = evE1.metadata)) :=
  ⟨by decide, by decide, merge_state_update evE1 evE2 (by decide) (by decide)⟩

/-- C3: upserting an incoming event whose `event_id` is stored but whose
metadata differs raises `MetadataConflict` and leaves the store exactly as it
was. -/
theorem upsert_conflict_rejected (s : Store) (e2 ex : Event)
    (hfind : List.find? (fun x => x.event_id == e2.event_id) s = some ex)
    (hconf : ex.metadata ≠ e2.metadata) :
    upsert s e2 = .error .MetadataConflict ∧ applyUpsert s e2 = s := by
  have h1 : upsert s e2 = .error .MetadataConflict := by
    simp only [upsert, hfind, merge_conflict hconf]
  refine ⟨h1, ?_⟩
  simp only [applyUpsert, h1]

/-- C3 witness: upserting `evE3` (same id as `evE1`, different
`metadata.start_time`) over the store `[evE1]` is rejected and leaves the
store unchanged. -/
theorem upsert_conflict_rejected_witness :
    List.find? (fun x => x.event_id == evE3.event_id) [evE1] = some evE1 ∧
    evE1.metadata ≠ evE3.metadata ∧
    (upsert [evE1] evE3 = .error .MetadataConflict ∧
      applyUpsert [evE1] evE3 = [evE1]) :=
  ⟨by decide, by decide, upsert_conflict_rejected [evE1] evE3 evE1 (by decide) (by decide)⟩

/-- C5: the Query Engine rejects a non-numeric, zero or negative `hours` with
`InvalidFilter` (HTTP 400) without mutating the store, answers every valid
request from the store unchanged with HTTP 200, and answers a valid request
with zero matches with an empty sequence rather than an error. -/
theorem query_engine_validation (s : Store) (now : Int) (sp kw : Option String) :
    (∀ h, badHours h = true →
      handleQuery s now h sp kw = (.error .InvalidFilter, s) ∧
      httpStatus (handleQuery s now h sp kw).1 = 400) ∧
    (∀ n : Int, 0 < n →
      handleQuery s now (.num n) sp kw =
        (.ok (query s now (n * 3600) sp kw), s) ∧
      httpStatus (handleQuery s now (.num n) sp kw).1 = 200) ∧
    (∀ n : Int, 0 < n → query s now (n * 3600) sp kw = [] →
      handleQuery s now (.num n) sp kw = (.ok [], s)) := by
  refine ⟨?_, ?_, ?_⟩
  · rintro (_ | n) hbad
    · exact ⟨rfl, rfl⟩
    · simp only [badHours, decide_eq_true_eq] at hbad
      simp [handleQuery, queryEngine, httpStatus, if_pos hbad]
  · intro n hn
    have hnn : ¬ n ≤ 0 := by omega
    simp [handleQuery, queryEngine, httpStatus, hnn]
  · intro n hn hq
    have hnn : ¬ n ≤ 0 := by omega
    simp [handleQuery, queryEngine, hnn, hq]

/-- C5 witness: the validation theorem applied to the empty store, at
`hours = 0` (rejected) and `hours = 1` with zero matches (HTTP 200, empty). -/
theorem query_engine_validation_witness :
    (handleQuery [] 0 (.num 0) none none = (.error .InvalidFilter, []) ∧
      httpStatus (handleQuery [] 0 (.num 0) none none).1 = 400) ∧
    (handleQuery [] 0 (.num 1) none none =
      (.ok (query [] 0 (1 * 3600) none none), []) ∧
      httpStatus (handleQuery [] 0 (.num 1) none none).1 = 200) ∧
    handleQuery [] 0 (.num 1) none none = (.ok [], []) :=
  ⟨(query_engine_validation [] 0 none none).1 (.num 0) (by decide),
   (query_engine_validation [] 0 none none).2.1 1 (by decide),
   (query_engine_validation [] 0 none none).2.2 1 (by decide) rfl⟩

/-- C8: upserting the same event twice leaves the store state identical to
upserting it once. -/
theorem upsert_idempotent (s : Store) (e : Event) :
    applyUpsert (applyUpsert s e) e = applyUpsert s e := by
  cases hf : List.find? (fun x => x.event_id == e.event_id) s with
  | none =>
    have ha1 : applyUpsert s e = s ++ [e] := by
      simp only [applyUpsert, upsert, hf]
    have hf2 : List.find? (fun x => x.event_id == e.event_id) (s ++ [e]) = some e := by
      rw [List.find?_append, hf]
      simp
    have hmap : List.map (fun x => if x.event_id == e.event_id then e else x) (s ++ [e]) =
        s ++ [e] := by
      rw [List.map_append]
      have hnone := List.find?_eq_none.mp hf
      congr 1
      · calc List.map (fun x => if x.event_id == e.event_id then e else x) s
            = List.map id s := List.map_congr_left (fun x hx => by
                have hx' : (x.event_id == e.event_id) = false := by
                  simpa using hnone x hx
                simp [hx'])
          _ = s := List.map_id s
      · simp
    rw [ha1]
    simp only [applyUpsert, upsert, hf2, merge_self, hmap]
  | some ex =>
    by_cases hm : ex.metadata = e.metadata
    · have hmerge1 : merge ex e = .ok (mergedEvent ex e) := merge_eq_of_metadata hm
      have ha1 : applyUpsert s e =
          List.map (fun x => if x.event_id == e.event_id then mergedEvent ex e else x) s := by
        simp only [applyUpsert, upsert, hf, hmerge1]
      have hpex0 := List.find?_some hf
      have hpex : (ex.event_id == e.event_id) = true := hpex0
      have hpm : ((mergedEvent ex e).event_id == e.event_id) = true := hpex
      have hfix : ∀ x : Event,
          (((if x.event_id == e.event_id then mergedEvent ex e else x).event_id ==
            e.event_id)) = (x.event_id == e.event_id) := by
        intro x
        by_cases hx : (x.event_id == e.event_id) = true
        · rw [if_pos hx, hx, hpm]
        · rw [if_neg hx]
      have hf2 : List.find? (fun x => x.event_id == e.event_id)
          (List.map (fun x => if x.event_id == e.event_id then mergedEvent ex e else x) s) =
          some (mergedEvent ex e) := by
        rw [List.find?_map]
        have hcomp : ((fun x : Event => x.event_id == e.event_id) ∘
            (fun x => if x.event_id == e.event_id then mergedEvent ex e else x)) =
            fun x : Event => x.event_id == e.event_id := funext fun x => hfix x
        rw [hcomp, hf, Option.map_some']
        rw [if_pos hpex]
      have hmerge2 : merge (mergedEvent ex e) e = .ok (mergedEvent ex e) := by
        have : (mergedEvent ex e).metadata = e.metadata := hm
        rw [merge_eq_of_metadata this]
        rfl
      have hmap2 : List.map (fun x => if x.event_id == e.event_id then mergedEvent ex e else x)
          (List.map (fun x => if x.event_id == e.event_id then mergedEvent ex e else x) s) =
          List.map (fun x => if x.event_id == e.event_id then mergedEvent ex e else x) s := by
        rw [List.map_map]
        apply List.map_congr_left
        intro x _
        show (if ((if x.event_id == e.event_id then mergedEvent ex e else x).event_id ==
            e.event_id) = true then mergedEvent ex e
          else (if x.event_id == e.event_id then mergedEvent ex e else x)) =
          (if x.event_id == e.event_id then mergedEvent ex e else x)
        by_cases hx : (x.event_id == e.event_id) = true
        · rw [if_pos hx, if_pos hpm]
        · simp only [if_neg hx]
      rw [ha1]
      simp only [applyUpsert, upsert, hf2, hmerge2, hmap2]
    · have ha1 : applyUpsert s e = s := by
        simp only [applyUpsert, upsert, hf, merge_conflict hm]
      simp only [ha1]

/-- C9 counterexample: the serialization of a concrete Event does not satisfy
the strict `EventData` shape of `src/frontend/src/types.ts`, because the
canonical `Event` carries a string `event_id` while `EventData` declares
`event_id: number`. -/
theorem serialized_event_not_strict_eventdata :
    eventDataOk (serializeEvent evJuve) = false := by decide

/-- C9 (amended): every serialized Event record carries exactly the fields
`{event_id, sport, metadata: {competition_name, home_team, away_team,
start_time}, state: {scores: [{value, label?}]}}` and matches the `EventData`
shape the display layer consumes — `value` required on every score, `label`
optional — except that `event_id` is a string (as the canonical `Event`
interface declares) where `EventData` declares a number. -/
theorem serialized_event_shape (e : Event) :
    eventDataStrIdOk (serializeEvent e) = true ∧
    eventDataOk (serializeEvent e) = false := by
  constructor
  · show (metadataObjOk (.obj [("competition_name", .str e.metadata.competition_name),
        ("home_team", .str e.metadata.home_team),
        ("away_team", .str e.metadata.away_team),
        ("start_time", .num e.metadata.start_time)]) &&
      stateObjOk (.obj [("scores", .arr (List.map serializeScore e.state.scores))])) = true
    rw [Bool.and_eq_true]
    refine ⟨rfl, ?_⟩
    show List.all (List.map serializeScore e.state.scores) scoreObjOk = true
    rw [List.all_eq_true]
    intro j hj
    obtain ⟨sc, _, rfl⟩ := List.mem_map.mp hj
    exact scoreObjOk_serialize sc
  · rfl
